import Mathlib

/-
Shallow embedding of the DAX Stock Visualizer (src/DAX_Visualizer.py).

Prices and volumes are modelled as exact rationals (ℚ).  A pandas column is
modelled as `List (Option ℚ)`: `none` stands for a NaN entry.  IEEE float
behaviour that the pipeline actually exercises is made explicit at the one
place it matters (the division `rs = ema_up / ema_down`, see `rsiFromEmas`):
for nonnegative operands, `u / 0 = +inf` for `u > 0` (so the RSI formula
yields exactly 100) and `0 / 0 = NaN` (undefined, dropped later by `dropna`).
-/

set_option maxRecDepth 100000

namespace DAXVisualizer

/-- Line 40, `series.diff()`: the pandas first difference of a series.  The
first entry has no predecessor and is NaN; entry `i ≥ 1` is `s[i] - s[i-1]`.
On an empty series the result is empty. -/
def diffList (s : List ℚ) : List (Option ℚ) :=
  match s with
  | [] => []
  | _ :: t => none :: (List.zipWith (fun b a => b - a) t s).map some

/-- One step of `ewm(com=periods-1, adjust=False).mean()` with decay weight
`a = 1/(1+com)`.  The running state is `none` until the first non-NaN
observation, which seeds the mean; afterwards the recurrence is
`m' = (1-a)*m + a*x`.  A NaN observation leaves the state unchanged and the
output carries the current mean (pandas with the default `ignore_na=False`;
in this pipeline NaNs occur only before the seed). -/
def ewmStep (a : ℚ) : Option ℚ → Option ℚ → Option ℚ
  | none, none => none
  | none, some v => some v
  | some m, none => some m
  | some m, some v => some ((1 - a) * m + a * v)

/-- Lines 44-45: the running states of the exponentially weighted mean, one
output entry per input entry. -/
def ewmGo (a : ℚ) (st : Option ℚ) : List (Option ℚ) → List (Option ℚ)
  | [] => []
  | x :: xs => ewmStep a st x :: ewmGo a (ewmStep a st x) xs

/-- Exponentially weighted moving average of a column, `adjust=False`,
started with no seed. -/
def ewm_mean (a : ℚ) (l : List (Option ℚ)) : List (Option ℚ) :=
  ewmGo a none l

/-- Clip of a value to the range `[0, ∞)`, that is `max d 0`. -/
def clipLower0 (d : ℚ) : ℚ := if 0 ≤ d then d else 0

/-- Clip of a value to the range `(-∞, 0]`, that is `min d 0`. -/
def clipUpper0 (d : ℚ) : ℚ := if d ≤ 0 then d else 0

/-- Line 41, `delta.clip(lower=0)`: the gain stream (NaN preserved). -/
def rsiUp (s : List ℚ) : List (Option ℚ) :=
  (diffList s).map (Option.map clipLower0)

/-- Line 42, `-1 * delta.clip(upper=0)`: the loss stream (NaN preserved). -/
def rsiDown (s : List ℚ) : List (Option ℚ) :=
  (diffList s).map (Option.map fun d => -1 * clipUpper0 d)

/-- Decay weight of `ewm(com=periods-1)`: `a = 1/(1+com) = 1/periods`. -/
def ewmAlpha (p : ℕ) : ℚ := 1 / p

/-- Line 44: `ema_up = up.ewm(com=periods-1, adjust=False).mean()`. -/
def rsiEmaUp (s : List ℚ) (periods : ℕ) : List (Option ℚ) :=
  ewm_mean (ewmAlpha periods) (rsiUp s)

/-- Line 45: `ema_down = down.ewm(com=periods-1, adjust=False).mean()`. -/
def rsiEmaDown (s : List ℚ) (periods : ℕ) : List (Option ℚ) :=
  ewm_mean (ewmAlpha periods) (rsiDown s)

/-- Lines 47-48: `rs = ema_up / ema_down; rsi = 100 - (100/(1+rs))`, with the
float semantics on the nonnegative smoothed streams: a NaN operand propagates
to NaN; `u / 0 = +inf` for `u ≠ 0`, and then `100 - 100/(1+inf) = 100`;
`0 / 0 = NaN`, so the value is undefined. -/
def rsiFromEmas : Option ℚ → Option ℚ → Option ℚ
  | some u, some d =>
      if d = 0 then (if u = 0 then none else some 100)
      else some (100 - 100 / (1 + u / d))
  | _, _ => none

/-- Lines 39-49, the whole `rsi(series, periods)` function: a column of the
same length as the input, NaN where the value is undefined. -/
def rsi (series : List ℚ) (periods : ℕ) : List (Option ℚ) :=
  List.zipWith rsiFromEmas (rsiEmaUp series periods) (rsiEmaDown series periods)

/-- Lines 53-55, `series.rolling(period).mean()`: at index `i` the arithmetic
mean of the `period` trailing observations ending at `i`; NaN while fewer than
`period` observations are available (`min_periods` defaults to the window). -/
def sma (series : List ℚ) (period : ℕ) : List (Option ℚ) :=
  (List.range series.length).map fun i =>
    if period ≤ i + 1 then
      some (((series.drop (i + 1 - period)).take period).sum / period)
    else none

/-- Raw data as downloaded by `yf.download` (line 32): an index of dates and
the columns the program uses.  Dates are abstracted as naturals; the remaining
OHLC columns play no role in the program and are omitted. -/
structure RawFrame where
  dates : List ℕ
  adjClose : List ℚ
  volume : List ℚ
deriving Repr, DecidableEq

/-- Row of the dataframe returned by `load_price_data` after `dropna`: every
remaining column entry, the RSI one included, is a defined value. -/
structure Row where
  date : ℕ
  adjClose : ℚ
  volume : ℚ
  rsiV : ℚ
deriving Repr, DecidableEq

/-- Lines 30-35, `load_price_data`: appends the column `RSI (periods)` to the
downloaded frame and then drops (`dropna`) every row holding a NaN — in this
model exactly the rows where the RSI value is undefined. -/
def load_price_data (raw : RawFrame) (periods : ℕ) : List Row :=
  let rsiCol := rsi raw.adjClose periods
  (List.range raw.adjClose.length).filterMap fun i =>
    (raw.dates[i]?).bind fun d =>
    (raw.adjClose[i]?).bind fun c =>
    (raw.volume[i]?).bind fun v =>
    (rsiCol[i]?).bind fun r => r.map fun rv => ⟨d, c, v, rv⟩

/-- Line 168. -/
def SMA_1_COLOR : String := "#ffd700"

/-- Line 169. -/
def SMA_2_COLOR : String := "#2069e0"

/-- Line 170. -/
def RSI_30_70_COLOR : String := "#00ff00"

/-- Line 171. -/
def RSI_15_85_COLOR : String := "#ffaa00"

/-- Line 172. -/
def RSI_0_100_COLOR : String := "#ff0000"

/-- Sidebar state read by `plot_price` (lines 190-196): the checkbox flags and
the period sliders. -/
structure Config where
  sma_1 : Bool
  sma_1_periods : ℕ
  sma_2 : Bool
  sma_2_periods : ℕ
  rsi_1 : Bool
  rsi_periods : ℕ
  volume : Bool
deriving Repr, DecidableEq

/-- Kind of a subplot produced by `plot_price`. -/
inductive PanelKind
  | price
  | oscillator
  | volume
deriving Repr, DecidableEq

/-- One plotted line series: its legend label / title, color, and data
(`none` entries are NaN points, drawn as gaps). -/
structure PlottedLine where
  label : String
  color : String
  data : List (Option ℚ)
deriving Repr, DecidableEq

/-- One subplot of the price figure: `plt.subplot(rows, 1, (rowStart, rowEnd))`
together with what is drawn on it. -/
structure Panel where
  kind : PanelKind
  gridRows : ℕ
  rowStart : ℕ
  rowEnd : ℕ
  lines : List PlottedLine
  yticks : List ℚ
  hlines : List (ℚ × String)
  bars : ℕ
deriving Repr, DecidableEq

/-- Result of `plot_price`: the stacked panels plus the dataframe it worked
on — line 85 (`df["Date"] = df.index`) appends a `Date` column copied from
the index and leaves every other row and column as received. -/
structure PlotResult where
  panels : List Panel
  df : List Row
  dateCol : List ℕ
deriving Repr, DecidableEq

/-- Lines 83-135, `plot_price`: the price panel on grid rows 1-7 of a 14-row
single-column grid, with the adjusted-close line and up to two SMA overlays;
if `rsi_1`, the RSI panel on rows 9-10 with six dashed reference lines; if
`volume`, the volume bar panel on rows 12-14 when the RSI panel exists and on
rows 9-10 otherwise. -/
def plot_price (cfg : Config) (df : List Row) : PlotResult :=
  let closes := df.map (·.adjClose)
  let ax1 : Panel :=
    { kind := .price, gridRows := 14, rowStart := 1, rowEnd := 7
      lines :=
        [⟨"Adj. Close", "lightgray", closes.map some⟩]
        ++ (if cfg.sma_1 then
              [⟨"SMA(" ++ toString cfg.sma_1_periods ++ ")", SMA_1_COLOR,
                sma closes cfg.sma_1_periods⟩]
            else [])
        ++ (if cfg.sma_2 then
              [⟨"SMA(" ++ toString cfg.sma_2_periods ++ ")", SMA_2_COLOR,
                sma closes cfg.sma_2_periods⟩]
            else [])
      yticks := [], hlines := [], bars := 0 }
  let ax2 : Panel :=
    { kind := .oscillator, gridRows := 14, rowStart := 9, rowEnd := 10
      lines := [⟨"RSI (" ++ toString cfg.rsi_periods ++ ")", "lightgray",
                df.map (some ·.rsiV)⟩]
      yticks := [0, 30, 70, 100]
      hlines := [(1, RSI_0_100_COLOR), (99, RSI_0_100_COLOR),
                 (15, RSI_15_85_COLOR), (85, RSI_15_85_COLOR),
                 (30, RSI_30_70_COLOR), (70, RSI_30_70_COLOR)]
      bars := 0 }
  let ax3 : Panel :=
    { kind := .volume, gridRows := 14
      rowStart := if cfg.rsi_1 then 12 else 9
      rowEnd := if cfg.rsi_1 then 14 else 10
      lines := [], yticks := [], hlines := [], bars := df.length }
  { panels := [ax1] ++ (if cfg.rsi_1 then [ax2] else [])
      ++ (if cfg.volume then [ax3] else [])
    df := df
    dateCol := df.map (·.date) }

/-- Numeric value of a decimal digit. -/
def digitVal (c : Char) : ℕ := c.toNat - 48

/-- Model of the Python builtin `float` applied to a plain decimal string:
an optional sign, a nonempty run of digits, and an optional fractional part.
Returns `none` where `float` would raise `ValueError`. -/
def parseFloat (s : String) : Option ℚ :=
  match s.toList with
  | [] => none
  | c :: cs0 =>
    let sign : ℚ := if c = '-' then -1 else 1
    let cs := if c = '-' ∨ c = '+' then cs0 else c :: cs0
    let intDigits := (cs.span Char.isDigit).1
    let rest := (cs.span Char.isDigit).2
    if intDigits.isEmpty then none
    else
      let ip : ℕ := intDigits.foldl (fun n ch => 10 * n + digitVal ch) 0
      match rest with
      | [] => some (sign * ip)
      | r :: fracs =>
          if r = '.' ∧ fracs.all Char.isDigit then
            let fp : ℕ := fracs.foldl (fun n ch => 10 * n + digitVal ch) 0
            some (sign * (ip + fp / (10 : ℚ) ^ fracs.length))
          else none

/-- Table `stock.major_holders` (lines 59-62): two columns of three rows.
Column 0 (`c0`, `c1`, `c2`) holds the percentages rendered as strings ending
in `%`; column 1 (`d0`, `d1`, `d2`) holds the provider's descriptive labels
(such as `% of Shares Held by All Insider`).  The program reads only column 0
(`major_holders[0][k]`); column 1 is never accessed. -/
structure HoldersTable where
  c0 : String
  c1 : String
  c2 : String
  d0 : String
  d1 : String
  d2 : String
deriving Repr, DecidableEq

/-- One `ax.pie(...)` call inside a `plt.subplot(1, 5, col)` cell. -/
structure PieChart where
  values : List ℚ
  colors : List String
  labels : List (Option String)
  counterclock : Bool
  startangle : ℚ
  title : String
  gridRows : ℕ
  gridCols : ℕ
  col : ℕ
deriving Repr, DecidableEq

/-- Lines 139-161, `plot_major_holders`: parses the three percentage cells of
column 0 (`float(cell[:-1])` — `none` models the `ValueError` the program
would raise on a malformed cell), then draws three two-slice pies in columns
1, 3 and 5 of a 1x5 grid, each slice pair `[p, 100-p]`, colors black/white,
labelled with the raw column-0 cell on the first slice and unlabelled on the
second, clockwise, start angle 90.  The descriptive labels of column 1 are
never read; each measured quantity is identified only by a hardcoded title. -/
def plot_major_holders (t : HoldersTable) : Option (List PieChart) :=
  match parseFloat (t.c0.dropRight 1), parseFloat (t.c1.dropRight 1),
        parseFloat (t.c2.dropRight 1) with
  | some p0, some p1, some p2 =>
      some
        [{ values := [p0, 100 - p0], colors := ["black", "white"]
           labels := [some t.c0, none], counterclock := false, startangle := 90
           title := "% of Shares Held by Insiders"
           gridRows := 1, gridCols := 5, col := 1 },
         { values := [p1, 100 - p1], colors := ["black", "white"]
           labels := [some t.c1, none], counterclock := false, startangle := 90
           title := "% of Shares Held by Institutions"
           gridRows := 1, gridCols := 5, col := 3 },
         { values := [p2, 100 - p2], colors := ["black", "white"]
           labels := [some t.c2, none], counterclock := false, startangle := 90
           title := "% of Float Held by Institutions"
           gridRows := 1, gridCols := 5, col := 5 }]
  | _, _, _ => none

/-- Lines 75-79, `convert_interval`: rewrites the three selectbox labels to
the provider's interval codes and leaves any other string unchanged. -/
def convert_interval (interval : String) : String :=
  let i1 := if interval = "1 day" then "1d" else interval
  let i2 := if i1 = "1 week" then "1wk" else i1
  let i3 := if i2 = "1 month" then "1mo" else i2
  i3

/-! Concrete fixtures used by witnesses and counterexamples. -/

/-- Configuration with every panel and overlay enabled, default windows. -/
def cfgAll : Config := ⟨true, 50, true, 200, true, 14, true⟩

/-- Configuration with the volume panel enabled and the RSI panel disabled. -/
def cfgVolNoOsc : Config := ⟨false, 50, false, 200, false, 14, true⟩

/-- Strictly increasing price series of 250 daily closes. -/
def closes250 : List ℚ := (List.range 250).map fun n : ℕ => (n : ℚ)

/-- Downloaded frame of 250 daily rows. -/
def raw250 : RawFrame := ⟨List.range 250, closes250, List.replicate 250 1⟩

/-- Dataframe of the 250-row example after `load_price_data`. -/
def df250 : List Row := load_price_data raw250 14

/-- Small downloaded frame of three rows with strictly increasing closes. -/
def raw3 : RawFrame := ⟨[0, 1, 2], [0, 1, 2], [1, 1, 1]⟩

/-- Concrete major-holders table: percentage cells in column 0, descriptive
labels in column 1. -/
def holders3 : HoldersTable :=
  ⟨"47.3%", "47.3%", "47.3%", "Insiders", "Institutions", "Float"⟩

/-! Helper lemmas about the embedded operations. -/

theorem clipLower0_of_nonneg {d : ℚ} (h : 0 ≤ d) : clipLower0 d = d :=
  if_pos h

theorem clipLower0_of_nonpos {d : ℚ} (h : d ≤ 0) : clipLower0 d = 0 := by
  unfold clipLower0
  rcases eq_or_lt_of_le h with h' | h'
  · simp [h']
  · rw [if_neg (by linarith)]

theorem clipUpper0_of_nonpos {d : ℚ} (h : d ≤ 0) : clipUpper0 d = d :=
  if_pos h

theorem clipUpper0_of_nonneg {d : ℚ} (h : 0 ≤ d) : clipUpper0 d = 0 := by
  unfold clipUpper0
  rcases eq_or_lt_of_le h with h' | h'
  · simp [← h']
  · rw [if_neg (by linarith)]

theorem length_ewmGo (a : ℚ) (st : Option ℚ) (l : List (Option ℚ)) :
    (ewmGo a st l).length = l.length := by
  induction l generalizing st with
  | nil => rfl
  | cons x xs ih => simp [ewmGo, ih]

theorem length_diffList (s : List ℚ) : (diffList s).length = s.length := by
  cases s with
  | nil => rfl
  | cons h t => simp [diffList]

theorem length_rsiUp (s : List ℚ) : (rsiUp s).length = s.length := by
  simp [rsiUp, length_diffList]

theorem length_rsiDown (s : List ℚ) : (rsiDown s).length = s.length := by
  simp [rsiDown, length_diffList]

theorem length_rsiEmaUp (s : List ℚ) (p : ℕ) :
    (rsiEmaUp s p).length = s.length := by
  simp [rsiEmaUp, ewm_mean, length_ewmGo, length_rsiUp]

theorem length_rsiEmaDown (s : List ℚ) (p : ℕ) :
    (rsiEmaDown s p).length = s.length := by
  simp [rsiEmaDown, ewm_mean, length_ewmGo, length_rsiDown]

theorem length_rsi (s : List ℚ) (p : ℕ) : (rsi s p).length = s.length := by
  simp [rsi, List.length_zipWith, length_rsiEmaUp, length_rsiEmaDown]

theorem ewmGo_getElem?_zero (a : ℚ) (st x : Option ℚ) (xs : List (Option ℚ)) :
    (ewmGo a st (x :: xs))[0]? = some (ewmStep a st x) := by
  simp [ewmGo]

/-- Recurrence of the smoothed stream: a defined mean followed by a defined
observation yields the mean `(1-a)*m + a*x` at the next position. -/
theorem ewmGo_step (a : ℚ) (l : List (Option ℚ)) :
    ∀ (st : Option ℚ) (i : ℕ) (m x : ℚ),
      (ewmGo a st l)[i]? = some (some m) → l[i + 1]? = some (some x) →
      (ewmGo a st l)[i + 1]? = some (some ((1 - a) * m + a * x)) := by
  induction l with
  | nil => intro st i m x h _; simp [ewmGo] at h
  | cons y ys ih =>
    intro st i m x h hx
    cases i with
    | zero =>
      have hy : ewmStep a st y = some m := by
        simpa [ewmGo] using h
      cases ys with
      | nil => simp at hx
      | cons z zs =>
        have hz : z = some x := by simpa using hx
        subst hz
        simp only [ewmGo, List.getElem?_cons_succ, List.getElem?_cons_zero]
        rw [hy]
        simp [ewmStep]
    | succ j =>
      have h' : (ewmGo a (ewmStep a st y) ys)[j]? = some (some m) := by
        simpa [ewmGo] using h
      have hx' : ys[j + 1]? = some (some x) := by simpa using hx
      simpa [ewmGo] using ih (ewmStep a st y) j m x h' hx'

/-- Wherever the input stream is defined, the smoothed stream is defined. -/
theorem ewmGo_defined (a : ℚ) (l : List (Option ℚ)) :
    ∀ (st : Option ℚ) (i : ℕ) (x : ℚ), l[i]? = some (some x) →
      ∃ q : ℚ, (ewmGo a st l)[i]? = some (some q) := by
  induction l with
  | nil => intro st i x h; simp at h
  | cons y ys ih =>
    intro st i x h
    cases i with
    | zero =>
      have hy : y = some x := by simpa using h
      subst hy
      cases st with
      | none => exact ⟨x, by simp [ewmGo, ewmStep]⟩
      | some m => exact ⟨(1 - a) * m + a * x, by simp [ewmGo, ewmStep]⟩
    | succ j =>
      have h' : ys[j]? = some (some x) := by simpa using h
      obtain ⟨q, hq⟩ := ih (ewmStep a st y) j x h'
      exact ⟨q, by simpa [ewmGo] using hq⟩

/-- Nonnegative inputs and a nonnegative state keep the smoothed stream
nonnegative, provided `0 ≤ a ≤ 1`. -/
theorem ewmGo_nonneg (a : ℚ) (ha0 : 0 ≤ a) (ha1 : a ≤ 1)
    (l : List (Option ℚ)) :
    ∀ (st : Option ℚ),
      (∀ o ∈ l, ∀ q : ℚ, o = some q → 0 ≤ q) →
      (∀ q : ℚ, st = some q → 0 ≤ q) →
      ∀ o ∈ ewmGo a st l, ∀ q : ℚ, o = some q → 0 ≤ q := by
  induction l with
  | nil => intro st _ _ o ho; simp [ewmGo] at ho
  | cons y ys ih =>
    intro st hl hst o ho q hq
    have hstep : ∀ r : ℚ, ewmStep a st y = some r → 0 ≤ r := by
      intro r hr
      cases st with
      | none =>
        cases y with
        | none => simp [ewmStep] at hr
        | some v =>
          have : v = r := by simpa [ewmStep] using hr
          exact this ▸ hl (some v) (by simp) v rfl
      | some m =>
        cases y with
        | none =>
          have : m = r := by simpa [ewmStep] using hr
          exact this ▸ hst m rfl
        | some v =>
          have hv : 0 ≤ v := hl (some v) (by simp) v rfl
          have hm : 0 ≤ m := hst m rfl
          have : (1 - a) * m + a * v = r := by simpa [ewmStep] using hr
          subst this
          have h1 : 0 ≤ (1 - a) * m := mul_nonneg (by linarith) hm
          have h2 : 0 ≤ a * v := mul_nonneg ha0 hv
          linarith
    rcases (by simpa [ewmGo] using ho : o = ewmStep a st y ∨ o ∈ ewmGo a (ewmStep a st y) ys) with h | h
    · exact hstep q (h ▸ hq)
    · exact ih (ewmStep a st y) (fun o' ho' => hl o' (by simp [ho'])) hstep o h q hq

/-- First entry of the difference column of a nonempty series is NaN. -/
theorem diffList_getElem?_zero (c : ℚ) (t : List ℚ) :
    (diffList (c :: t))[0]? = some none := by
  simp [diffList]

/-- Entry `i+1` of the difference column is the difference of the adjacent
observations. -/
theorem diffList_getElem?_succ (s : List ℚ) (i : ℕ) (b aa : ℚ)
    (hb : s[i + 1]? = some b) (ha : s[i]? = some aa) :
    (diffList s)[i + 1]? = some (some (b - aa)) := by
  cases s with
  | nil => simp at hb
  | cons c t =>
    have ht : t[i]? = some b := by simpa using hb
    simp only [diffList, List.getElem?_cons_succ, List.getElem?_map]
    rw [List.getElem?_zipWith']
    simp [ht, ha]

/-- Sum of a list of rationals written as a sum over its positions. -/
theorem list_sum_eq_sum_getD (l : List ℚ) :
    l.sum = ∑ j ∈ Finset.range l.length, l.getD j 0 := by
  induction l with
  | nil => simp
  | cons a t ih =>
    rw [List.sum_cons, ih, List.length_cons, Finset.sum_range_succ']
    simp [add_comm]

/-- Sum of the trailing window `[a, a+w)` of a list. -/
theorem window_sum_eq (s : List ℚ) (a w : ℕ) (h : a + w ≤ s.length) :
    ((s.drop a).take w).sum = ∑ j ∈ Finset.Ico a (a + w), s.getD j 0 := by
  have hlen : ((s.drop a).take w).length = w := by
    simp [List.length_take, List.length_drop]
    omega
  rw [list_sum_eq_sum_getD, hlen, Finset.sum_Ico_eq_sum_range]
  have hw : a + w - a = w := by omega
  rw [hw]
  apply Finset.sum_congr rfl
  intro j hj
  have hj' : j < w := Finset.mem_range.mp hj
  rw [List.getD_eq_getElem?_getD, List.getD_eq_getElem?_getD,
    List.getElem?_take_of_lt hj', List.getElem?_drop]

/-! Claim theorems. -/

/-- C5: for every series `S` and window `w` with `1 ≤ w ≤ len(S)`,
`movingAverage(S, w)` (the source's `sma`) is undefined at every index before
`w - 1`, and at every index `i ≥ w - 1` equals the arithmetic mean of
`S[i-w+1..i]`. -/
theorem sma_trailing_mean (s : List ℚ) (w : ℕ) (hw : 1 ≤ w)
    (hws : w ≤ s.length) :
    (∀ i, i + 1 < w → i < s.length → (sma s w)[i]? = some none) ∧
    (∀ i, w ≤ i + 1 → i < s.length →
      (sma s w)[i]? =
        some (some ((∑ j ∈ Finset.Ico (i + 1 - w) (i + 1), s.getD j 0) / w))) := by
  constructor
  · intro i h1 h2
    simp only [sma, List.getElem?_map, List.getElem?_range h2, Option.map_some']
    rw [if_neg (by omega)]
  · intro i h1 h2
    simp only [sma, List.getElem?_map, List.getElem?_range h2, Option.map_some']
    rw [if_pos h1]
    have ha : (i + 1 - w) + w = i + 1 := by omega
    rw [window_sum_eq s (i + 1 - w) w (by omega), ha]

/-- Witness for C5 at `S = [1,2,3]`, `w = 2`, `i = 1`: the value is the mean
of the two observations at positions 0 and 1. -/
theorem sma_trailing_mean_witness :
    (sma [(1 : ℚ), 2, 3] 2)[1]? =
      some (some ((∑ j ∈ Finset.Ico 0 2, [(1 : ℚ), 2, 3].getD j 0) / 2)) :=
  (sma_trailing_mean [(1 : ℚ), 2, 3] 2 (by norm_num) (by norm_num)).2 1
    (by norm_num) (by norm_num)

/-- C8: a series with fewer rows than the window yields an all-undefined
moving-average column (and, the embedding being total, no error). -/
theorem sma_short_series_all_undefined (s : List ℚ) (w : ℕ) (hw : 1 ≤ w)
    (h : s.length < w) : (sma s w).all (fun o => o.isNone) = true := by
  rw [List.all_eq_true]
  intro o ho
  simp only [sma, List.mem_map, List.mem_range] at ho
  obtain ⟨i, hi, rfl⟩ := ho
  rw [if_neg (by omega)]
  rfl

/-- Witness for C8 at `S = [1,2]`, `w = 5`. -/
theorem sma_short_series_all_undefined_witness :
    (sma [(1 : ℚ), 2] 5).all (fun o => o.isNone) = true :=
  sma_short_series_all_undefined [(1 : ℚ), 2] 5 (by norm_num) (by norm_num)

/-- C10: `convert_interval` maps exactly the three selectbox labels to the
provider codes and returns every other string unchanged; it is total and
never fails. -/
theorem convert_interval_total :
    convert_interval "1 day" = "1d" ∧ convert_interval "1 week" = "1wk" ∧
    convert_interval "1 month" = "1mo" ∧
    ∀ s : String, s ≠ "1 day" → s ≠ "1 week" → s ≠ "1 month" →
      convert_interval s = s := by
  refine ⟨by simp [convert_interval], by simp [convert_interval],
    by simp [convert_interval], ?_⟩
  intro s h1 h2 h3
  simp [convert_interval, h1, h2, h3]

/-- Witness for C10 on a string that is none of the three labels. -/
theorem convert_interval_total_witness :
    convert_interval "5 days" = "5 days" :=
  convert_interval_total.2.2.2 "5 days" (by simp) (by simp) (by simp)

/-- C1 counterexample: with the volume panel enabled and the oscillator panel
absent, the volume panel sits on grid rows 9-10 — that is 2 rows, not 3, and
it does not directly follow the price panel (which ends at row 7): grid row 8
is left blank. -/
theorem volume_rows_no_osc_counterexample :
    ((plot_price cfgVolNoOsc []).panels.filter fun p =>
        decide (p.kind = PanelKind.volume)).map (fun p => (p.rowStart, p.rowEnd)) =
      [(9, 10)] ∧ (9 : ℕ) ≠ 7 + 1 ∧ 10 - 9 + 1 ≠ 3 := by
  refine ⟨?_, by norm_num, by norm_num⟩
  simp [plot_price, cfgVolNoOsc, List.filter]

/-- C1 amended: on the fixed 14-row grid the price panel always occupies rows
1-7; the oscillator panel, when present, occupies rows 9-10; the volume panel,
when present, occupies rows 12-14 (3 rows, starting strictly after the
oscillator panel ends) if the oscillator panel is present, and rows 9-10
(2 rows, leaving row 8 blank after the price panel) if it is absent. -/
theorem plot_price_row_allocation (cfg : Config) (df : List Row) :
    (((plot_price cfg df).panels.filter fun p => decide (p.kind = PanelKind.price)).map
        (fun p => (p.rowStart, p.rowEnd)) = [(1, 7)]) ∧
    (((plot_price cfg df).panels.filter fun p => decide (p.kind = PanelKind.oscillator)).map
        (fun p => (p.rowStart, p.rowEnd)) = if cfg.rsi_1 then [(9, 10)] else []) ∧
    (((plot_price cfg df).panels.filter fun p => decide (p.kind = PanelKind.volume)).map
        (fun p => (p.rowStart, p.rowEnd)) =
      if cfg.volume then (if cfg.rsi_1 then [(12, 14)] else [(9, 10)]) else []) := by
  obtain ⟨s1, p1, s2, p2, r1, rp, v⟩ := cfg
  cases r1 <;> cases v <;> simp [plot_price, List.filter]

/-- C6: the layout contains the price panel always, the oscillator panel iff
`rsi_1`, and the volume panel iff `volume`, in that fixed top-to-bottom order;
with both optional flags false the layout has exactly one panel; `plot_price`
is total, so every flag combination renders. -/
theorem plot_price_panel_composition (cfg : Config) (df : List Row) :
    ((plot_price cfg df).panels.map Panel.kind =
      [PanelKind.price] ++ (if cfg.rsi_1 then [PanelKind.oscillator] else [])
        ++ (if cfg.volume then [PanelKind.volume] else [])) ∧
    (PanelKind.oscillator ∈ (plot_price cfg df).panels.map Panel.kind ↔
      cfg.rsi_1 = true) ∧
    (PanelKind.volume ∈ (plot_price cfg df).panels.map Panel.kind ↔
      cfg.volume = true) ∧
    ((plot_price { cfg with rsi_1 := false, volume := false } df).panels.length
      = 1) := by
  obtain ⟨s1, p1, s2, p2, r1, rp, v⟩ := cfg
  cases r1 <;> cases v <;> simp [plot_price]

/-- Concrete run of `load_price_data` on the three-row frame: the first
downloaded row is removed because its RSI entry is NaN. -/
theorem load_price_data_raw3_eval :
    load_price_data raw3 14 = [⟨1, 1, 1, 100⟩, ⟨2, 2, 1, 100⟩] := by
  norm_num [load_price_data, raw3, rsi, rsiEmaUp, rsiEmaDown, rsiUp, rsiDown,
    diffList, clipLower0, clipUpper0, ewm_mean, ewmGo, ewmStep, ewmAlpha,
    rsiFromEmas, List.range_succ, List.filterMap_append, List.filterMap_cons]

/-- C9 counterexample: the indicator-computation stage does not leave every
existing row of the fetched series unchanged — on a three-row fetch it removes
the first row (the one whose appended RSI value is undefined), so the series
that reaches the later stages has only two rows. -/
theorem load_price_data_drops_fetched_row :
    (load_price_data raw3 14).length = 2 ∧ raw3.adjClose.length = 3 ∧
    (2 : ℕ) ≠ 3 := by
  refine ⟨?_, by simp [raw3], by norm_num⟩
  rw [load_price_data_raw3_eval]
  rfl

/-- C9 amended: the indicator-computation stage appends the oscillator column
and removes the rows where it is undefined; every row it keeps carries the
fetched date, close and volume values unchanged, and the later stages (chart
layout and rendering) leave every row and column unchanged, only appending the
derived `Date` column copied from the index. -/
theorem price_series_preserved (raw : RawFrame) (p : ℕ) (cfg : Config) :
    (∀ r ∈ load_price_data raw p, ∃ i : ℕ,
        raw.dates[i]? = some r.date ∧ raw.adjClose[i]? = some r.adjClose ∧
        raw.volume[i]? = some r.volume) ∧
    (plot_price cfg (load_price_data raw p)).df = load_price_data raw p ∧
    (plot_price cfg (load_price_data raw p)).dateCol =
      (load_price_data raw p).map Row.date := by
  refine ⟨?_, rfl, rfl⟩
  intro r hr
  simp only [load_price_data, List.mem_filterMap, List.mem_range] at hr
  obtain ⟨i, _, hf⟩ := hr
  refine ⟨i, ?_⟩
  rcases h0 : raw.dates[i]? with _ | d <;> rw [h0] at hf
  · simp at hf
  rcases h1 : raw.adjClose[i]? with _ | c <;> rw [h1] at hf
  · simp at hf
  rcases h2 : raw.volume[i]? with _ | v <;> rw [h2] at hf
  · simp at hf
  rcases h3 : (rsi raw.adjClose p)[i]? with _ | rv <;> rw [h3] at hf
  · simp at hf
  rcases rv with _ | q
  · simp at hf
  · simp only [Option.some_bind, Option.map_some', Option.some.injEq] at hf
    obtain rfl := hf.symm
    simp [h0, h1, h2]

/-- Witness for C9 at the three-row frame: the kept row `(1, 1, 1, 100)`
originates unchanged from position 1 of the fetch. -/
theorem price_series_preserved_witness :
    ∃ i : ℕ, raw3.dates[i]? = some 1 ∧ raw3.adjClose[i]? = some 1 ∧
      raw3.volume[i]? = some 1 :=
  (price_series_preserved raw3 14 cfgAll).1 ⟨1, 1, 1, 100⟩
    (by rw [load_price_data_raw3_eval]; simp)

/-- Evaluation of the decimal parser on the cell used by the C7 witness. -/
theorem parseFloat_473 : parseFloat "47.3" = some (473 / 10) := by
  have ht : "47.3".toList = ['4', '7', '.', '3'] := by decide
  have hne2 : ¬('4' = '-') := by decide
  have hne3 : ¬('4' = '+') := by decide
  have hspan : List.span Char.isDigit ['4', '7', '.', '3'] =
      (['4', '7'], ['.', '3']) := by decide
  have hfold : List.foldl (fun n ch => 10 * n + digitVal ch) 0 ['4', '7'] = 47 := by
    decide
  have hfold2 : List.foldl (fun n ch => 10 * n + digitVal ch) 0 ['3'] = 3 := by
    decide
  have hdig : ∀ x ∈ (['3'] : List Char), x.isDigit = true := by decide
  simp only [parseFloat, ht, hne2, hne3, hspan, hfold, hfold2, ite_false,
    ite_true, eq_self_iff_true, List.isEmpty_cons, if_false, false_or, or_self]
  norm_num [hdig]

/-- C7 counterexample: on a snapshot whose first pair carries the descriptive
label `Insiders` (column 1) and the percentage cell `47.3%` (column 0), the
builder labels the share-of-interest slice with the raw percentage cell
`47.3%`, not with `Insiders` as the claim states — the descriptive labels of
the snapshot are never read. -/
theorem plot_major_holders_label_counterexample :
    (plot_major_holders holders3).map (fun cs => cs.map fun c => c.labels) =
      some [[some "47.3%", none], [some "47.3%", none], [some "47.3%", none]] ∧
    holders3.d0 = "Insiders" ∧
    (some "47.3%" : Option String) ≠ some "Insiders" := by
  have hp : parseFloat ("47.3%".dropRight 1) = some (473 / 10) := by
    rw [show ("47.3%".dropRight 1) = "47.3" from by decide]
    exact parseFloat_473
  refine ⟨?_, rfl, by decide⟩
  simp [plot_major_holders, show holders3.c0 = "47.3%" from rfl,
    show holders3.c1 = "47.3%" from rfl, show holders3.c2 = "47.3%" from rfl,
    hp]

/-- C7 amended: for an ownership snapshot whose three column-0 cells parse to
percentages in `[0, 100]`, the builder produces, for each pair, a two-slice
chart with values `[p, 100-p]`, the raw percentage cell (not the pair's
descriptive label, which is ignored) as the label of the first slice and no
label on the second, the fixed black/white palette, start angle 90, clockwise
ordering, and the three charts in columns 1, 3, 5 of a five-column grid, each
identified by a hardcoded title. -/
theorem plot_major_holders_layout (t : HoldersTable) (p0 p1 p2 : ℚ)
    (h0 : parseFloat (t.c0.dropRight 1) = some p0)
    (h1 : parseFloat (t.c1.dropRight 1) = some p1)
    (h2 : parseFloat (t.c2.dropRight 1) = some p2)
    (hb0 : 0 ≤ p0 ∧ p0 ≤ 100) (hb1 : 0 ≤ p1 ∧ p1 ≤ 100)
    (hb2 : 0 ≤ p2 ∧ p2 ≤ 100) :
    plot_major_holders t = some
      [{ values := [p0, 100 - p0], colors := ["black", "white"]
         labels := [some t.c0, none], counterclock := false, startangle := 90
         title := "% of Shares Held by Insiders"
         gridRows := 1, gridCols := 5, col := 1 },
       { values := [p1, 100 - p1], colors := ["black", "white"]
         labels := [some t.c1, none], counterclock := false, startangle := 90
         title := "% of Shares Held by Institutions"
         gridRows := 1, gridCols := 5, col := 3 },
       { values := [p2, 100 - p2], colors := ["black", "white"]
         labels := [some t.c2, none], counterclock := false, startangle := 90
         title := "% of Float Held by Institutions"
         gridRows := 1, gridCols := 5, col := 5 }] := by
  simp [plot_major_holders, h0, h1, h2]

/-- Witness for the amended C7 at a table whose percentage cells are all
`47.3%`: slice values `[47.3, 52.7]` and labels `[47.3%, none]`, charts in
columns 1, 3, 5. -/
theorem plot_major_holders_layout_witness :
    plot_major_holders holders3 = some
      [{ values := [473 / 10, 100 - 473 / 10], colors := ["black", "white"]
         labels := [some holders3.c0, none], counterclock := false
         startangle := 90, title := "% of Shares Held by Insiders"
         gridRows := 1, gridCols := 5, col := 1 },
       { values := [473 / 10, 100 - 473 / 10], colors := ["black", "white"]
         labels := [some holders3.c1, none], counterclock := false
         startangle := 90, title := "% of Shares Held by Institutions"
         gridRows := 1, gridCols := 5, col := 3 },
       { values := [473 / 10, 100 - 473 / 10], colors := ["black", "white"]
         labels := [some holders3.c2, none], counterclock := false
         startangle := 90, title := "% of Float Held by Institutions"
         gridRows := 1, gridCols := 5, col := 5 }] := by
  have hp : parseFloat (holders3.c0.dropRight 1) = some (473 / 10) := by
    rw [show holders3.c0 = "47.3%" from rfl,
      show ("47.3%".dropRight 1) = "47.3" from by decide]
    exact parseFloat_473
  exact plot_major_holders_layout holders3 (473 / 10) (473 / 10) (473 / 10)
    hp hp hp (by norm_num) (by norm_num) (by norm_num)

theorem clipLower0_nonneg (d : ℚ) : 0 ≤ clipLower0 d := by
  unfold clipLower0
  split
  · assumption
  · exact le_refl 0

theorem neg_clipUpper0_nonneg (d : ℚ) : 0 ≤ -1 * clipUpper0 d := by
  unfold clipUpper0
  split
  · linarith
  · linarith

/-- Every defined entry of the gain stream is nonnegative. -/
theorem rsiUp_entries_nonneg (s : List ℚ) :
    ∀ o ∈ rsiUp s, ∀ q : ℚ, o = some q → 0 ≤ q := by
  intro o ho q hq
  simp only [rsiUp, List.mem_map] at ho
  obtain ⟨d, _, rfl⟩ := ho
  cases d with
  | none => simp at hq
  | some d' =>
    have : clipLower0 d' = q := by simpa using hq
    exact this ▸ clipLower0_nonneg d'

/-- Every defined entry of the loss stream is nonnegative. -/
theorem rsiDown_entries_nonneg (s : List ℚ) :
    ∀ o ∈ rsiDown s, ∀ q : ℚ, o = some q → 0 ≤ q := by
  intro o ho q hq
  simp only [rsiDown, List.mem_map] at ho
  obtain ⟨d, _, rfl⟩ := ho
  cases d with
  | none => simp at hq
  | some d' =>
    have : -1 * clipUpper0 d' = q := by simpa using hq
    exact this ▸ neg_clipUpper0_nonneg d'

/-- Decay weight bounds for `periods ≥ 1`. -/
theorem ewmAlpha_bounds {p : ℕ} (hp : 1 ≤ p) :
    0 ≤ ewmAlpha p ∧ ewmAlpha p ≤ 1 := by
  have hp' : (1 : ℚ) ≤ (p : ℚ) := by exact_mod_cast hp
  constructor
  · unfold ewmAlpha
    positivity
  · unfold ewmAlpha
    rw [div_le_one (by linarith)]
    exact hp'

/-- Every defined entry of the smoothed gain stream is nonnegative. -/
theorem rsiEmaUp_entries_nonneg (s : List ℚ) {p : ℕ} (hp : 1 ≤ p) :
    ∀ o ∈ rsiEmaUp s p, ∀ q : ℚ, o = some q → 0 ≤ q := by
  obtain ⟨ha0, ha1⟩ := ewmAlpha_bounds hp
  exact ewmGo_nonneg (ewmAlpha p) ha0 ha1 (rsiUp s) none
    (rsiUp_entries_nonneg s) (by simp)

/-- Every defined entry of the smoothed loss stream is nonnegative. -/
theorem rsiEmaDown_entries_nonneg (s : List ℚ) {p : ℕ} (hp : 1 ≤ p) :
    ∀ o ∈ rsiEmaDown s p, ∀ q : ℚ, o = some q → 0 ≤ q := by
  obtain ⟨ha0, ha1⟩ := ewmAlpha_bounds hp
  exact ewmGo_nonneg (ewmAlpha p) ha0 ha1 (rsiDown s) none
    (rsiDown_entries_nonneg s) (by simp)

/-- Value of the oscillator formula for nonnegative smoothed streams lies in
`[0, 100]`. -/
theorem rsiFromEmas_bounds {u d q : ℚ} (hu : 0 ≤ u) (hd : 0 ≤ d)
    (h : rsiFromEmas (some u) (some d) = some q) : 0 ≤ q ∧ q ≤ 100 := by
  simp only [rsiFromEmas] at h
  by_cases hd0 : d = 0
  · rw [if_pos hd0] at h
    by_cases hu0 : u = 0
    · rw [if_pos hu0] at h
      simp at h
    · rw [if_neg hu0] at h
      obtain rfl := (Option.some.injEq _ _).mp h
      norm_num
  · rw [if_neg hd0] at h
    obtain rfl := (Option.some.injEq _ _).mp h
    have hdpos : 0 < d := lt_of_le_of_ne hd (Ne.symm hd0)
    have hr : 0 ≤ u / d := div_nonneg hu (le_of_lt hdpos)
    have h1 : (1 : ℚ) ≤ 1 + u / d := by linarith
    have hup : 100 / (1 + u / d) ≤ 100 := by
      rw [div_le_iff (by linarith)]
      nlinarith
    have hlo : 0 < 100 / (1 + u / d) := by positivity
    constructor <;> linarith

/-- C3 counterexample: on the flat series `[5,5,5]` the smoothed loss at
position 1 is exactly zero and the smoothed gain is simultaneously zero, and
the oscillator value there is undefined (NaN), not 100. -/
theorem rsi_flat_series_counterexample :
    (rsiEmaDown [(5 : ℚ), 5, 5] 14)[1]? = some (some 0) ∧
    (rsiEmaUp [(5 : ℚ), 5, 5] 14)[1]? = some (some 0) ∧
    (rsi [(5 : ℚ), 5, 5] 14)[1]? = some none ∧
    (some (none : Option ℚ) ≠ some (some (100 : ℚ))) := by
  refine ⟨?_, ?_, ?_, by simp⟩ <;>
    norm_num [rsi, rsiEmaUp, rsiEmaDown, rsiUp, rsiDown, diffList, clipLower0,
      clipUpper0, ewm_mean, ewmGo, ewmStep, ewmAlpha, rsiFromEmas]

/-- C3 amended: for every series and `periods ≥ 1`, every defined oscillator
value lies in `[0, 100]`; where the smoothed loss is exactly zero, the value
is 100 when the smoothed gain is nonzero and undefined (NaN) when the
smoothed gain is simultaneously zero. -/
theorem rsi_bounds_and_saturation (s : List ℚ) (p : ℕ) (hp : 1 ≤ p) (i : ℕ) :
    (∀ q : ℚ, (rsi s p)[i]? = some (some q) → 0 ≤ q ∧ q ≤ 100) ∧
    (∀ u : ℚ, (rsiEmaDown s p)[i]? = some (some 0) →
      (rsiEmaUp s p)[i]? = some (some u) →
      ((u ≠ 0 → (rsi s p)[i]? = some (some 100)) ∧
       (u = 0 → (rsi s p)[i]? = some none))) := by
  constructor
  · intro q hq
    rw [rsi, List.getElem?_zipWith_eq_some] at hq
    obtain ⟨x, y, hx, hy, hxy⟩ := hq
    cases x with
    | none => simp [rsiFromEmas] at hxy
    | some u =>
      cases y with
      | none => simp [rsiFromEmas] at hxy
      | some d =>
        have hu : 0 ≤ u :=
          rsiEmaUp_entries_nonneg s hp _ (List.getElem?_mem hx) u rfl
        have hd : 0 ≤ d :=
          rsiEmaDown_entries_nonneg s hp _ (List.getElem?_mem hy) d rfl
        exact rsiFromEmas_bounds hu hd hxy
  · intro u hdown hup
    have hz : (rsi s p)[i]? = some (rsiFromEmas (some u) (some 0)) := by
      rw [rsi, List.getElem?_zipWith, hup, hdown]
    constructor
    · intro hu0
      rw [hz]
      simp [rsiFromEmas, hu0]
    · intro hu0
      rw [hz, hu0]
      simp [rsiFromEmas]

/-- Witness for C3 at `S = [0,1]`, `periods = 14`, position 1: smoothed loss
zero, smoothed gain nonzero, oscillator value exactly 100. -/
theorem rsi_bounds_and_saturation_witness :
    (rsi [(0 : ℚ), 1] 14)[1]? = some (some 100) :=
  ((rsi_bounds_and_saturation [(0 : ℚ), 1] 14 (by norm_num) 1).2 1
    (by norm_num [rsiEmaDown, rsiDown, diffList, clipUpper0, ewm_mean, ewmGo,
      ewmStep, ewmAlpha])
    (by norm_num [rsiEmaUp, rsiUp, diffList, clipLower0, ewm_mean, ewmGo,
      ewmStep, ewmAlpha])).1 (by norm_num)

theorem clipLower0_eq_max (d : ℚ) : clipLower0 d = max d 0 := by
  unfold clipLower0
  rcases le_or_lt 0 d with h | h
  · rw [if_pos h, max_eq_left h]
  · rw [if_neg (not_le.mpr h), max_eq_right (le_of_lt h)]

theorem neg_clipUpper0_eq_min (d : ℚ) : -1 * clipUpper0 d = -(min d 0) := by
  unfold clipUpper0
  rcases le_or_lt d 0 with h | h
  · rw [if_pos h, min_eq_left h]
    ring
  · rw [if_neg (not_le.mpr h), min_eq_right (le_of_lt h)]
    ring

theorem rsiUp_getElem? (s : List ℚ) (i : ℕ) :
    (rsiUp s)[i]? = ((diffList s)[i]?).map (Option.map clipLower0) := by
  simp [rsiUp]

theorem rsiDown_getElem? (s : List ℚ) (i : ℕ) :
    (rsiDown s)[i]? =
      ((diffList s)[i]?).map (Option.map fun d => -1 * clipUpper0 d) := by
  simp [rsiDown]

theorem rsiUp_head (s : List ℚ) (h : s ≠ []) : (rsiUp s)[0]? = some none := by
  cases s with
  | nil => exact absurd rfl h
  | cons c t => simp [rsiUp, diffList]

theorem rsiDown_head (s : List ℚ) (h : s ≠ []) : (rsiDown s)[0]? = some none := by
  cases s with
  | nil => exact absurd rfl h
  | cons c t => simp [rsiDown, diffList]

theorem ewm_mean_head (a : ℚ) (l : List (Option ℚ)) (h : l[0]? = some none) :
    (ewm_mean a l)[0]? = some none := by
  cases l with
  | nil => simp at h
  | cons o t =>
    have ho : o = none := by simpa using h
    subst ho
    simp [ewm_mean, ewmGo, ewmStep]

/-- With a NaN first entry, the second entry of the input seeds the mean. -/
theorem ewm_mean_seed (a : ℚ) (l : List (Option ℚ)) (x : ℚ)
    (h0 : l[0]? = some none) (h1 : l[1]? = some (some x)) :
    (ewm_mean a l)[1]? = some (some x) := by
  cases l with
  | nil => simp at h0
  | cons o t =>
    cases t with
    | nil => simp at h1
    | cons o1 r =>
      have ho : o = none := by simpa using h0
      have ho1 : o1 = some x := by simpa using h1
      subst ho
      subst ho1
      simp [ewm_mean, ewmGo, ewmStep]

theorem rsiUp_defined (s : List ℚ) (i : ℕ) (h1 : 1 ≤ i) (h2 : i < s.length) :
    ∃ v : ℚ, (rsiUp s)[i]? = some (some v) := by
  obtain ⟨j, rfl⟩ : ∃ j, i = j + 1 := ⟨i - 1, by omega⟩
  obtain ⟨b, hb⟩ : ∃ b, s[j + 1]? = some b := ⟨_, List.getElem?_eq_getElem h2⟩
  obtain ⟨aa, ha⟩ : ∃ aa, s[j]? = some aa :=
    ⟨_, List.getElem?_eq_getElem (by omega)⟩
  refine ⟨clipLower0 (b - aa), ?_⟩
  rw [rsiUp_getElem?, diffList_getElem?_succ s j b aa hb ha]
  rfl

theorem rsiDown_defined (s : List ℚ) (i : ℕ) (h1 : 1 ≤ i) (h2 : i < s.length) :
    ∃ v : ℚ, (rsiDown s)[i]? = some (some v) := by
  obtain ⟨j, rfl⟩ : ∃ j, i = j + 1 := ⟨i - 1, by omega⟩
  obtain ⟨b, hb⟩ : ∃ b, s[j + 1]? = some b := ⟨_, List.getElem?_eq_getElem h2⟩
  obtain ⟨aa, ha⟩ : ∃ aa, s[j]? = some aa :=
    ⟨_, List.getElem?_eq_getElem (by omega)⟩
  refine ⟨-1 * clipUpper0 (b - aa), ?_⟩
  rw [rsiDown_getElem?, diffList_getElem?_succ s j b aa hb ha]
  rfl

theorem rsiEmaUp_defined (s : List ℚ) (p : ℕ) (i : ℕ) (h1 : 1 ≤ i)
    (h2 : i < s.length) : ∃ u : ℚ, (rsiEmaUp s p)[i]? = some (some u) := by
  obtain ⟨v, hv⟩ := rsiUp_defined s i h1 h2
  simpa [rsiEmaUp, ewm_mean] using
    ewmGo_defined (ewmAlpha p) (rsiUp s) none i v hv

theorem rsiEmaDown_defined (s : List ℚ) (p : ℕ) (i : ℕ) (h1 : 1 ≤ i)
    (h2 : i < s.length) : ∃ u : ℚ, (rsiEmaDown s p)[i]? = some (some u) := by
  obtain ⟨v, hv⟩ := rsiDown_defined s i h1 h2
  simpa [rsiEmaDown, ewm_mean] using
    ewmGo_defined (ewmAlpha p) (rsiDown s) none i v hv

theorem ewmAlpha_lt_one {p : ℕ} (hp : 2 ≤ p) : ewmAlpha p < 1 := by
  have hp' : (1 : ℚ) < (p : ℚ) := by exact_mod_cast (by omega : 1 < p)
  unfold ewmAlpha
  rw [div_lt_one (by linarith)]
  exact hp'

/-- If a one-step mean of nonnegative inputs is zero and the decay weight is
below one, the previous mean was already zero. -/
theorem ewm_zero_back {a m x : ℚ} (ha0 : 0 ≤ a) (ha1 : a < 1) (hm : 0 ≤ m)
    (hx : 0 ≤ x) (h : (1 - a) * m + a * x = 0) : m = 0 := by
  have h1 : 0 ≤ (1 - a) * m := mul_nonneg (by linarith) hm
  have h2 : 0 ≤ a * x := mul_nonneg ha0 hx
  have h3 : (1 - a) * m = 0 := by linarith
  rcases mul_eq_zero.mp h3 with h4 | h4
  · linarith
  · exact h4

/-- RSI entry in terms of the two smoothed-stream entries. -/
theorem rsi_getElem?_eq (s : List ℚ) (p : ℕ) (i : ℕ) (x y : Option ℚ)
    (hx : (rsiEmaUp s p)[i]? = some x) (hy : (rsiEmaDown s p)[i]? = some y) :
    (rsi s p)[i]? = some (rsiFromEmas x y) := by
  simp [rsi, List.getElem?_zipWith, hx, hy]

theorem rsi_head (s : List ℚ) (p : ℕ) (h : s ≠ []) :
    (rsi s p)[0]? = some none := by
  have hu := ewm_mean_head (ewmAlpha p) (rsiUp s) (rsiUp_head s h)
  have hd := ewm_mean_head (ewmAlpha p) (rsiDown s) (rsiDown_head s h)
  have := rsi_getElem?_eq s p 0 none none (by simpa [rsiEmaUp] using hu)
    (by simpa [rsiEmaDown] using hd)
  simpa [rsiFromEmas] using this

/-- Defined rows of a column are all rows minus the NaN rows. -/
theorem filterMap_id_length (l : List (Option ℚ)) :
    (l.filterMap id).length = l.length - l.countP (fun o => o.isNone) := by
  rw [List.length_filterMap_eq_countP]
  have h := List.length_eq_countP_add_countP (fun o : Option ℚ => o.isSome) l
  have he : l.countP (fun o : Option ℚ => decide ¬(o.isSome = true)) =
      l.countP (fun o : Option ℚ => o.isNone) := by
    congr 1
    funext o
    cases o <;> simp
  have hid : l.countP (fun a : Option ℚ => (id a).isSome) =
      l.countP (fun o : Option ℚ => o.isSome) := rfl
  rw [hid]
  omega

/-- C4 counterexample: for `periods = 1` (allowed by the claim's
`periods ≥ 1`) on the series `[0,0,1,1]`, the smoothing is memoryless, so the
row at position 3 is undefined even though position 2 is defined: the
undefined rows after the first are not leading, and the defined output length
is 1, not `len(S) - 1 - (leading undefined rows) = 4 - 1 - 1 = 2`.  The row
dropped at position 3 moreover has both smoothed values defined (both zero). -/
theorem rsi_length_formula_counterexample :
    rsi [(0 : ℚ), 0, 1, 1] 1 = [none, none, some 100, none] ∧
    (rsiEmaUp [(0 : ℚ), 0, 1, 1] 1)[3]? = some (some 0) ∧
    (rsiEmaDown [(0 : ℚ), 0, 1, 1] 1)[3]? = some (some 0) ∧
    ((rsi [(0 : ℚ), 0, 1, 1] 1).filterMap id).length = 1 ∧
    (1 : ℕ) ≠ 4 - 1 - 1 := by
  have h : rsi [(0 : ℚ), 0, 1, 1] 1 = [none, none, some 100, none] := by
    norm_num [rsi, rsiEmaUp, rsiEmaDown, rsiUp, rsiDown, diffList, clipLower0,
      clipUpper0, ewm_mean, ewmGo, ewmStep, ewmAlpha, rsiFromEmas]
  refine ⟨h, ?_, ?_, by rw [h]; rfl, by norm_num⟩ <;>
    norm_num [rsiEmaUp, rsiEmaDown, rsiUp, rsiDown, diffList, clipLower0,
      clipUpper0, ewm_mean, ewmGo, ewmStep, ewmAlpha]

/-- C4 amended: for every series and `periods ≥ 2` the oscillator computes
the first difference, splits it into the nonnegative gain stream `max(d,0)`
and loss stream `-min(d,0)`, smooths each with the `adjust=False` EWMA of
decay weight `1/periods` seeded from the first observation, applies
`100 - 100/(1 + gain/loss)` where the smoothed loss is nonzero, leaves the
first row undefined, and the fully-defined rows have length
`len(S) - 1 - u` where `u` counts the undefined rows beyond the first; those
undefined rows are leading (each undefined row at `i ≥ 2` follows an
undefined row at `i - 1`).  For `periods = 1` the leading property fails
(see the counterexample). -/
theorem rsi_pipeline_spec (s : List ℚ) (p : ℕ) (hp : 2 ≤ p) :
    (∀ i : ℕ, ∀ b aa : ℚ, s[i + 1]? = some b → s[i]? = some aa →
      (diffList s)[i + 1]? = some (some (b - aa))) ∧
    (s ≠ [] → (diffList s)[0]? = some none) ∧
    (∀ i : ℕ, ∀ d : ℚ, (diffList s)[i]? = some (some d) →
      (rsiUp s)[i]? = some (some (clipLower0 d)) ∧
      (rsiDown s)[i]? = some (some (-1 * clipUpper0 d)) ∧
      clipLower0 d = max d 0 ∧ -1 * clipUpper0 d = -(min d 0)) ∧
    (∀ x : ℚ, (rsiUp s)[1]? = some (some x) →
      (rsiEmaUp s p)[1]? = some (some x)) ∧
    (∀ y : ℚ, (rsiDown s)[1]? = some (some y) →
      (rsiEmaDown s p)[1]? = some (some y)) ∧
    (∀ i : ℕ, ∀ m x : ℚ, (rsiEmaUp s p)[i]? = some (some m) →
      (rsiUp s)[i + 1]? = some (some x) →
      (rsiEmaUp s p)[i + 1]? =
        some (some ((1 - 1 / (p : ℚ)) * m + (1 / (p : ℚ)) * x))) ∧
    (∀ i : ℕ, ∀ m y : ℚ, (rsiEmaDown s p)[i]? = some (some m) →
      (rsiDown s)[i + 1]? = some (some y) →
      (rsiEmaDown s p)[i + 1]? =
        some (some ((1 - 1 / (p : ℚ)) * m + (1 / (p : ℚ)) * y))) ∧
    (∀ i : ℕ, ∀ u d : ℚ, (rsiEmaUp s p)[i]? = some (some u) →
      (rsiEmaDown s p)[i]? = some (some d) → d ≠ 0 →
      (rsi s p)[i]? = some (some (100 - 100 / (1 + u / d)))) ∧
    (s ≠ [] → (rsi s p)[0]? = some none) ∧
    (∀ i : ℕ, 2 ≤ i → (rsi s p)[i]? = some none →
      (rsi s p)[i - 1]? = some none) ∧
    (((rsi s p).filterMap id).length =
      s.length - 1 - (((rsi s p).drop 1).countP fun o => o.isNone)) := by
  have hp1 : 1 ≤ p := by omega
  obtain ⟨ha0, ha1⟩ := ewmAlpha_bounds hp1
  have halt := ewmAlpha_lt_one hp
  refine ⟨?_, ?_, ?_, ?_, ?_, ?_, ?_, ?_, ?_, ?_, ?_⟩
  · intro i b aa hb ha
    exact diffList_getElem?_succ s i b aa hb ha
  · intro h
    cases s with
    | nil => exact absurd rfl h
    | cons c t => exact diffList_getElem?_zero c t
  · intro i d hd
    refine ⟨?_, ?_, clipLower0_eq_max d, neg_clipUpper0_eq_min d⟩
    · rw [rsiUp_getElem?, hd]
      rfl
    · rw [rsiDown_getElem?, hd]
      rfl
  · intro x hx
    have hne : s ≠ [] := by
      intro hs
      subst hs
      simp [rsiUp, diffList] at hx
    simpa [rsiEmaUp] using
      ewm_mean_seed (ewmAlpha p) (rsiUp s) x (rsiUp_head s hne) hx
  · intro y hy
    have hne : s ≠ [] := by
      intro hs
      subst hs
      simp [rsiDown, diffList] at hy
    simpa [rsiEmaDown] using
      ewm_mean_seed (ewmAlpha p) (rsiDown s) y (rsiDown_head s hne) hy
  · intro i m x hm hx
    simpa [rsiEmaUp, ewm_mean, ewmAlpha] using
      ewmGo_step (ewmAlpha p) (rsiUp s) none i m x
        (by simpa [rsiEmaUp, ewm_mean] using hm) hx
  · intro i m y hm hy
    simpa [rsiEmaDown, ewm_mean, ewmAlpha] using
      ewmGo_step (ewmAlpha p) (rsiDown s) none i m y
        (by simpa [rsiEmaDown, ewm_mean] using hm) hy
  · intro i u d hu hd hdne
    rw [rsi_getElem?_eq s p i (some u) (some d) hu hd]
    simp [rsiFromEmas, hdne]
  · intro h
    exact rsi_head s p h
  · intro i h2 hnone
    rw [rsi, List.getElem?_zipWith_eq_some] at hnone
    obtain ⟨x, y, hx, hy, hxy⟩ := hnone
    have hilen : i < s.length := by
      obtain ⟨hl, -⟩ := List.getElem?_eq_some_iff.mp hx
      rwa [length_rsiEmaUp] at hl
    obtain ⟨u, hu⟩ := rsiEmaUp_defined s p i (by omega) hilen
    obtain ⟨v, hv⟩ := rsiEmaDown_defined s p i (by omega) hilen
    obtain rfl : x = some u := Option.some_injective _ (hx.symm.trans hu)
    obtain rfl : y = some v := Option.some_injective _ (hy.symm.trans hv)
    have huv : v = 0 ∧ u = 0 := by
      by_cases hv0 : v = 0
      · by_cases hu0 : u = 0
        · exact ⟨hv0, hu0⟩
        · simp [rsiFromEmas, hv0, hu0] at hxy
      · simp [rsiFromEmas, hv0] at hxy
    obtain ⟨rfl, rfl⟩ := huv
    obtain ⟨j, rfl⟩ : ∃ j, i = j + 1 := ⟨i - 1, by omega⟩
    obtain ⟨mu, hmu⟩ := rsiEmaUp_defined s p j (by omega) (by omega)
    obtain ⟨mv, hmv⟩ := rsiEmaDown_defined s p j (by omega) (by omega)
    obtain ⟨xu, hxu⟩ := rsiUp_defined s (j + 1) (by omega) hilen
    obtain ⟨xv, hxv⟩ := rsiDown_defined s (j + 1) (by omega) hilen
    have hustep : (rsiEmaUp s p)[j + 1]? =
        some (some ((1 - ewmAlpha p) * mu + ewmAlpha p * xu)) := by
      simpa [rsiEmaUp, ewm_mean] using
        ewmGo_step (ewmAlpha p) (rsiUp s) none j mu xu
          (by simpa [rsiEmaUp, ewm_mean] using hmu) hxu
    have hvstep : (rsiEmaDown s p)[j + 1]? =
        some (some ((1 - ewmAlpha p) * mv + ewmAlpha p * xv)) := by
      simpa [rsiEmaDown, ewm_mean] using
        ewmGo_step (ewmAlpha p) (rsiDown s) none j mv xv
          (by simpa [rsiEmaDown, ewm_mean] using hmv) hxv
    have hequ : (1 - ewmAlpha p) * mu + ewmAlpha p * xu = 0 := by
      have := hustep.symm.trans hu
      simpa using this
    have heqv : (1 - ewmAlpha p) * mv + ewmAlpha p * xv = 0 := by
      have := hvstep.symm.trans hv
      simpa using this
    have hmu0 : 0 ≤ mu :=
      rsiEmaUp_entries_nonneg s hp1 _ (List.getElem?_mem hmu) mu rfl
    have hxu0 : 0 ≤ xu :=
      rsiUp_entries_nonneg s _ (List.getElem?_mem hxu) xu rfl
    have hmv0 : 0 ≤ mv :=
      rsiEmaDown_entries_nonneg s hp1 _ (List.getElem?_mem hmv) mv rfl
    have hxv0 : 0 ≤ xv :=
      rsiDown_entries_nonneg s _ (List.getElem?_mem hxv) xv rfl
    have hmuz : mu = 0 := ewm_zero_back ha0 halt hmu0 hxu0 hequ
    have hmvz : mv = 0 := ewm_zero_back ha0 halt hmv0 hxv0 heqv
    subst hmuz
    subst hmvz
    have hr := rsi_getElem?_eq s p j (some 0) (some 0) hmu hmv
    simpa [rsiFromEmas] using hr
  · cases s with
    | nil =>
      simp [rsi, rsiEmaUp, rsiEmaDown, rsiUp, rsiDown, diffList, ewm_mean,
        ewmGo]
    | cons c t =>
      have hhead := rsi_head (c :: t) p (by simp)
      obtain ⟨o, R, hR⟩ : ∃ o R, rsi (c :: t) p = o :: R := by
        cases hrs : rsi (c :: t) p with
        | nil =>
          have hlen := length_rsi (c :: t) p
          rw [hrs] at hlen
          simp at hlen
        | cons o R => exact ⟨o, R, rfl⟩
      have ho : o = none := by
        rw [hR] at hhead
        simpa using hhead
      subst ho
      have hlen2 : R.length = t.length := by
        have hlen := length_rsi (c :: t) p
        rw [hR] at hlen
        simpa using hlen
      rw [hR]
      rw [List.filterMap_cons_none rfl, filterMap_id_length R]
      simp only [List.drop_succ_cons, List.drop_zero, List.length_cons]
      omega

/-- Witness for C4 at `S = [1,3,2]`, `periods = 2`: the first difference and
the dropped first row, plus one smoothing step with weight `1/2`. -/
theorem rsi_pipeline_spec_witness :
    (diffList [(1 : ℚ), 3, 2])[0]? = some none ∧
    (rsi [(1 : ℚ), 3, 2] 2)[0]? = some none ∧
    (rsiEmaUp [(1 : ℚ), 3, 2] 2)[2]? =
      some (some ((1 - 1 / ((2 : ℕ) : ℚ)) * 2 + (1 / ((2 : ℕ) : ℚ)) * 0)) := by
  have T := rsi_pipeline_spec [(1 : ℚ), 3, 2] 2 (by norm_num)
  refine ⟨T.2.1 (by simp), T.2.2.2.2.2.2.2.2.1 (by simp), ?_⟩
  refine T.2.2.2.2.2.1 1 2 0 ?_ ?_
  · norm_num [rsiEmaUp, rsiUp, diffList, clipLower0, ewm_mean, ewmGo, ewmStep,
      ewmAlpha]
  · norm_num [rsiUp, diffList, clipLower0]

theorem diffList_head (s : List ℚ) (h : s ≠ []) :
    (diffList s)[0]? = some none := by
  cases s with
  | nil => exact absurd rfl h
  | cons c t => exact diffList_getElem?_zero c t

theorem closes250_getElem? (k : ℕ) (hk : k < 250) :
    closes250[k]? = some ((k : ℕ) : ℚ) := by
  rw [closes250, List.getElem?_map, List.getElem?_range hk]
  rfl

theorem length_closes250 : closes250.length = 250 := by
  rw [closes250, List.length_map, List.length_range]

theorem closes250_ne_nil : closes250 ≠ [] := by
  intro h
  have := length_closes250
  rw [h] at this
  simp at this

/-- First differences of the strictly increasing example series. -/
theorem diffList_closes250 :
    diffList closes250 = none :: List.replicate 249 (some 1) := by
  apply List.ext_getElem?
  intro n
  cases n with
  | zero =>
    rw [diffList_head closes250 closes250_ne_nil]
    rfl
  | succ j =>
    by_cases hj : j < 249
    · rw [diffList_getElem?_succ closes250 j ((j + 1 : ℕ) : ℚ) ((j : ℕ) : ℚ)
        (closes250_getElem? (j + 1) (by omega)) (closes250_getElem? j (by omega))]
      have hv : ((j + 1 : ℕ) : ℚ) - ((j : ℕ) : ℚ) = 1 := by
        push_cast
        ring
      rw [hv, List.getElem?_cons_succ, List.getElem?_replicate_of_lt hj]
    · have h1 : (diffList closes250)[j + 1]? = none :=
        List.getElem?_eq_none (by rw [length_diffList, length_closes250]; omega)
      have h2 : ((none :: List.replicate 249 (some 1)) :
          List (Option ℚ))[j + 1]? = none :=
        List.getElem?_eq_none (by simp; omega)
      rw [h1, h2]

/-- Constant smoothing: a stream equal to the fixed point of the recurrence
stays at the fixed point. -/
theorem ewmGo_const_some (a c : ℚ) (hc : (1 - a) * c + a * c = c) :
    ∀ n, ewmGo a (some c) (List.replicate n (some c)) =
      List.replicate n (some c) := by
  intro n
  induction n with
  | zero => rfl
  | succ m ih =>
    rw [List.replicate_succ]
    show ewmStep a (some c) (some c) ::
      ewmGo a (ewmStep a (some c) (some c)) (List.replicate m (some c)) = _
    have hs : ewmStep a (some c) (some c) = some c := by
      simp [ewmStep, hc]
    rw [hs, ih, ← List.replicate_succ]

theorem ewm_mean_const (a c : ℚ) (hc : (1 - a) * c + a * c = c) (n : ℕ) :
    ewm_mean a (none :: List.replicate n (some c)) =
      none :: List.replicate n (some c) := by
  cases n with
  | zero => rfl
  | succ m =>
    rw [List.replicate_succ]
    show ewmStep a none none :: (ewmStep a none (some c) ::
      ewmGo a (ewmStep a none (some c)) (List.replicate m (some c))) = _
    have h1 : ewmStep a none none = none := rfl
    have h2 : ewmStep a none (some c) = some c := rfl
    rw [h1, h2, ewmGo_const_some a c hc m, ← List.replicate_succ]

theorem rsiUp_closes250 :
    rsiUp closes250 = none :: List.replicate 249 (some 1) := by
  rw [rsiUp, diffList_closes250]
  simp [clipLower0]

theorem rsiDown_closes250 :
    rsiDown closes250 = none :: List.replicate 249 (some 0) := by
  rw [rsiDown, diffList_closes250]
  have h1 : clipUpper0 1 = 0 := clipUpper0_of_nonneg (by norm_num)
  simp [h1]

theorem rsi_closes250 :
    rsi closes250 14 = none :: List.replicate 249 (some 100) := by
  rw [rsi, rsiEmaUp, rsiEmaDown, rsiUp_closes250, rsiDown_closes250,
    ewm_mean_const _ 1 (by ring) 249, ewm_mean_const _ 0 (by ring) 249]
  show rsiFromEmas none none ::
    List.zipWith rsiFromEmas (List.replicate 249 (some 1))
      (List.replicate 249 (some 0)) = _
  rw [List.zipWith_replicate']
  have h : rsiFromEmas (some 1) (some 0) = some 100 := by
    norm_num [rsiFromEmas]
  rw [h]
  rfl

theorem length_filterMap_of_forall_isSome {α β : Type} (f : α → Option β)
    (l : List α) (h : ∀ x ∈ l, (f x).isSome) :
    (l.filterMap f).length = l.length := by
  induction l with
  | nil => rfl
  | cons x t ih =>
    rw [List.filterMap_cons]
    rcases hx : f x with _ | b
    · have := h x (by simp)
      rw [hx] at this
      simp at this
    · simp only [List.length_cons]
      rw [ih fun y hy => h y (by simp [hy])]

theorem raw250_dates_eq : raw250.dates = List.range 250 := rfl

theorem raw250_closes_eq : raw250.adjClose = closes250 := rfl

theorem raw250_vol_eq : raw250.volume = List.replicate 250 1 := rfl

/-- Length of a filterMap over `range (n+1)` whose function fails at 0 and
succeeds at every later position. -/
theorem filterMap_range_succ_length {β : Type} (f : ℕ → Option β) (n : ℕ)
    (h0 : f 0 = none) (h : ∀ x, x < n → (f (x + 1)).isSome) :
    ((List.range (n + 1)).filterMap f).length = n := by
  rw [List.range_succ_eq_map, List.filterMap_cons_none h0, List.filterMap_map]
  rw [length_filterMap_of_forall_isSome]
  · exact List.length_range n
  · intro x hx
    rw [List.mem_range] at hx
    exact h x hx

/-- Length of the example dataframe: the 250 fetched rows minus the one row
whose RSI entry is NaN. -/
theorem df250_length : df250.length = 249 := by
  simp only [df250, load_price_data, raw250_closes_eq, length_closes250]
  refine filterMap_range_succ_length _ 249 ?_ ?_
  · have hd : raw250.dates[0]? = some 0 := by
      rw [raw250_dates_eq]
      exact List.getElem?_range (by omega)
    have hc : closes250[0]? = some ((0 : ℕ) : ℚ) := closes250_getElem? 0 (by omega)
    have hr : (rsi closes250 14)[0]? = some none := by
      rw [rsi_closes250]
      rfl
    simp only [hd, hc, hr, Option.some_bind]
    have hv : raw250.volume[0]? = some 1 := by
      rw [raw250_vol_eq]
      exact List.getElem?_replicate_of_lt (by omega)
    simp only [hv, Option.some_bind, Option.map_none']
  · intro x hx
    have hd : raw250.dates[x + 1]? = some (x + 1) := by
      rw [raw250_dates_eq]
      exact List.getElem?_range (by omega)
    have hc : closes250[x + 1]? = some ((x + 1 : ℕ) : ℚ) :=
      closes250_getElem? (x + 1) (by omega)
    have hv : raw250.volume[x + 1]? = some 1 := by
      rw [raw250_vol_eq]
      exact List.getElem?_replicate_of_lt (by omega)
    have hr : (rsi closes250 14)[x + 1]? = some (some 100) := by
      rw [rsi_closes250, List.getElem?_cons_succ]
      exact List.getElem?_replicate_of_lt hx
    simp only [hd, hc, hv, hr, Option.some_bind, Option.map_some']
    rfl

/-- C2 counterexample: on a 250-close daily series with all panels enabled
and windows 50/200/14, the rendered volume panel has 249 bars, not 250 — the
first fetched row is removed from the whole dataframe by the NaN drop. -/
theorem volume_bars_250_counterexample :
    ((plot_price cfgAll df250).panels.filter fun p =>
        decide (p.kind = PanelKind.volume)).map (fun p => p.bars) = [249] ∧
    (249 : ℕ) ≠ 250 := by
  refine ⟨?_, by norm_num⟩
  have hl : df250.length = 249 := df250_length
  generalize df250 = D at hl ⊢
  simp [plot_price, cfgAll, List.filter, hl]

/-- C2 amended: the 250-close end-to-end example renders 3 panels; the price
panel draws the adjusted-close line plus exactly the two moving-average
overlays (the two fixed SMA colors); the oscillator panel has exactly 6
reference lines; the volume panel is present with 249 bars, because the NaN
drop after appending the oscillator column removes the first fetched row from
every rendered series, not only from the indicator series. -/
theorem chart_250_run :
    (plot_price cfgAll df250).panels.length = 3 ∧
    (((plot_price cfgAll df250).panels.filter fun p =>
        decide (p.kind = PanelKind.price)).map
      (fun p => p.lines.map (fun ln => ln.color))) =
      [["lightgray", SMA_1_COLOR, SMA_2_COLOR]] ∧
    (((plot_price cfgAll df250).panels.filter fun p =>
        decide (p.kind = PanelKind.oscillator)).map
      (fun p => p.hlines.length)) = [6] ∧
    (((plot_price cfgAll df250).panels.filter fun p =>
        decide (p.kind = PanelKind.volume)).map (fun p => p.bars)) = [249] ∧
    raw250.adjClose.length = 250 := by
  refine ⟨?_, ?_, ?_, ?_, by rw [raw250_closes_eq, length_closes250]⟩ <;>
  · have hl : df250.length = 249 := df250_length
    generalize df250 = D at hl ⊢
    simp [plot_price, cfgAll, List.filter, hl]

end DAXVisualizer
